import Mathlib

/-!
Verification of the `ljpx/web` request-dispatch core.

This file gives a shallow embedding, in Lean, of the Go sources
(`Context.go`, `HandlerBuilder.go`, `Purifiable.go`, `util.go`,
`Config.go`, `Route.go`) and proves or refutes the frozen claims about
them.  Stateful Go code is embedded as explicit state passing: the
`http.ResponseWriter` handed to the library is modelled as the trace of
calls it receives, `MeasuredResponseWriter` and `Context` are structures
whose operations return updated copies, and a Go `panic` is an `Option`
or `none` result.  Go `int64` values are embedded as `Int`; the
arithmetic involved never overflows 64 bits, so no wrap-around modelling
is needed.
-/

namespace LjpxWeb

/-- One call received by the underlying raw `http.ResponseWriter`:
a header-map `Set`, a `WriteHeader`, or a body `Write`. -/
inductive WriterEvent where
  | setHeader (name value : String)
  | writeHeader (code : Int)
  | write (body : String)
deriving DecidableEq, Repr

/-- `true` exactly on `WriterEvent.writeHeader` events. -/
def WriterEvent.isWriteHeader : WriterEvent → Bool
  | .writeHeader _ => true
  | _ => false

/-- Number of `WriteHeader` calls the underlying writer received. -/
def countWriteHeaders (events : List WriterEvent) : Nat :=
  (events.filter WriterEvent.isWriteHeader).length

/-- Go `http.Header.Set`: replaces any existing value for the name. -/
def headerSet (hs : List (String × String)) (name value : String) : List (String × String) :=
  match hs with
  | [] => [(name, value)]
  | (n, v) :: rest => if n = name then (name, value) :: rest else (n, v) :: headerSet rest name value

/-- Lookup of a header value by name. -/
def headerGet (hs : List (String × String)) (name : String) : Option String :=
  match hs with
  | [] => none
  | (n, v) :: rest => if n = name then some v else headerGet rest name

/-- Replays the header-map `Set` calls of a trace, ignoring everything else. -/
def applyHeaderEvents (events : List WriterEvent) (hs : List (String × String)) : List (String × String) :=
  match events with
  | [] => hs
  | .setHeader n v :: rest => applyHeaderEvents rest (headerSet hs n v)
  | .writeHeader _ :: rest => applyHeaderEvents rest hs
  | .write _ :: rest => applyHeaderEvents rest hs

/-- The response actually committed to the client: the code of the first
`WriteHeader` call together with the header map as it stood at that
moment (an HTTP server sends the headers with the status line; later
`Set` calls change nothing on the wire). -/
def committedResponse (events : List WriterEvent) (hs : List (String × String)) : Option (Int × List (String × String)) :=
  match events with
  | [] => none
  | .setHeader n v :: rest => committedResponse rest (headerSet hs n v)
  | .writeHeader c :: _ => some (c, hs)
  | .write _ :: rest => committedResponse rest hs

/-- Embeds `MeasuredResponseWriter` (Purifiable.go).  The wrapped raw
writer `w` is modelled by the trace of calls forwarded to it; the
`startTime` field and the wall-clock `Duration()` method are outside the
model. -/
structure MeasuredResponseWriter where
  events            : List WriterEvent
  statusCode        : Int
  volume            : Int
  hasWrittenHeaders : Bool
deriving Repr

/-- Embeds `NewMeasuredResponseWriter`: a fresh wrapper around a writer
that has received no calls yet. -/
def NewMeasuredResponseWriter : MeasuredResponseWriter :=
  { events := [], statusCode := 0, volume := 0, hasWrittenHeaders := false }

/-- Embeds `Header().Set(name, value)` on the wrapped writer: `Header`
returns the underlying writer's header map, so the `Set` call goes
straight through. -/
def MeasuredResponseWriter.headerSetCall (mrw : MeasuredResponseWriter) (name value : String) : MeasuredResponseWriter :=
  { mrw with events := mrw.events ++ [.setHeader name value] }

/-- Embeds `MeasuredResponseWriter.Write`: forwards to the underlying
writer and accumulates the number of bytes written (bodies here are
ASCII, so byte count and character count agree). -/
def MeasuredResponseWriter.WriteBody (mrw : MeasuredResponseWriter) (b : String) : MeasuredResponseWriter :=
  { mrw with events := mrw.events ++ [.write b], volume := mrw.volume + b.length }

/-- Embeds `MeasuredResponseWriter.WriteHeader`: records the code and
forwards it on the first call only; later calls return at once. -/
def MeasuredResponseWriter.WriteHeader (mrw : MeasuredResponseWriter) (statusCode : Int) : MeasuredResponseWriter :=
  if mrw.hasWrittenHeaders then mrw
  else { mrw with
          statusCode := statusCode,
          events := mrw.events ++ [.writeHeader statusCode],
          hasWrittenHeaders := true }

/-- Embeds `MeasuredResponseWriter.StatusCode`: the recorded code, or
`http.StatusOK` (200) while the zero sentinel is still in place. -/
def MeasuredResponseWriter.StatusCode (mrw : MeasuredResponseWriter) : Int :=
  if mrw.statusCode = 0 then 200 else mrw.statusCode

/-- Embeds `MeasuredResponseWriter.HasWrittenHeaders`. -/
def MeasuredResponseWriter.HasWrittenHeaders (mrw : MeasuredResponseWriter) : Bool :=
  mrw.hasWrittenHeaders

/-- A sequence of `WriteHeader` calls performed one after the other. -/
def writeHeaderSeq (mrw : MeasuredResponseWriter) (codes : List Int) : MeasuredResponseWriter :=
  codes.foldl MeasuredResponseWriter.WriteHeader mrw

theorem writeHeader_of_written (mrw : MeasuredResponseWriter) (c : Int)
    (h : mrw.hasWrittenHeaders = true) : mrw.WriteHeader c = mrw := by
  simp [MeasuredResponseWriter.WriteHeader, h]

theorem writeHeaderSeq_of_written (mrw : MeasuredResponseWriter) (codes : List Int)
    (h : mrw.hasWrittenHeaders = true) : writeHeaderSeq mrw codes = mrw := by
  induction codes with
  | nil => rfl
  | cons c rest ih =>
      simp [writeHeaderSeq, List.foldl_cons] at *
      rw [writeHeader_of_written mrw c h]
      exact ih

/-- Embeds `Config` (Config.go).  The Go field `ProblemDetailsTypePrefix`
is embedded as `problemTypeRoot`. -/
structure Config where
  problemTypeRoot        : String
  debuggingEnabled       : Bool
  jsonContentLengthLimit : Int
deriving Repr

/-! ### JSON values and their serialized form

`wellFormedJSON` below is modelled from the spec, which demands that
every substituted error envelope be "well-formed JSON": a string is
well-formed JSON when it is the rendering of some JSON value.  The
renderer follows the JSON grammar: strings are quoted with `"`, `\`
and control characters escaped; objects and arrays are comma-separated
and brace/bracket delimited. -/

mutual
inductive Json where
  | null : Json
  | str (s : String) : Json
  | num (n : Int) : Json
  | bool (b : Bool) : Json
  | arr (items : JsonArr) : Json
  | obj (fields : JsonObj) : Json

inductive JsonArr where
  | nil : JsonArr
  | cons (hd : Json) (tl : JsonArr) : JsonArr

inductive JsonObj where
  | nil : JsonObj
  | cons (key : String) (val : Json) (tl : JsonObj) : JsonObj
end

/-- The double-quote character that delimits JSON string literals. -/
def quoteChar : Char := '"'

/-- The backslash character that starts JSON escapes. -/
def slashChar : Char := '\\'

/-- The sixteen lowercase hexadecimal digit characters. -/
def hexDigits : List Char := "0123456789abcdef".toList

/-- The hexadecimal digit character for `n % 16`. -/
def hexDigit (n : Nat) : Char :=
  hexDigits.get ⟨n % 16, Nat.lt_of_lt_of_le (Nat.mod_lt _ (by decide)) (by decide)⟩

/-- The ten decimal digit characters. -/
def decDigits : List Char := "0123456789".toList

/-- The decimal digit character for `d % 10`. -/
def digitChar (d : Nat) : Char :=
  decDigits.get ⟨d % 10, Nat.lt_of_lt_of_le (Nat.mod_lt _ (by decide)) (by decide)⟩

/-- Decimal digits of `n`, most significant first; `fuel` bounds the
recursion (any `fuel ≥ n` suffices since `n / 10 < n` for `n > 0`). -/
def natCharsAux : Nat → Nat → List Char
  | 0, _ => []
  | _ + 1, 0 => []
  | fuel + 1, n => natCharsAux fuel (n / 10) ++ [digitChar (n % 10)]

/-- Decimal rendering of a natural number. -/
def natChars (n : Nat) : List Char :=
  if n = 0 then "0".toList else natCharsAux n n

/-- Decimal rendering of an integer. -/
def intChars (n : Int) : List Char :=
  if n < 0 then '-' :: natChars n.natAbs else natChars n.natAbs

/-- JSON escaping of one character inside a string literal: quote and
backslash get a backslash escape, control characters a `\u00XX` escape,
everything else stands for itself. -/
def jsonEscapeChar (c : Char) : List Char :=
  if c = quoteChar then [slashChar, quoteChar]
  else if c = slashChar then slashChar :: [slashChar]
  else if c.toNat < 32 then
    slashChar :: 'u' :: '0' :: '0' :: hexDigit (c.toNat / 16) :: [hexDigit (c.toNat % 16)]
  else [c]

/-- JSON escaping of the characters of a string literal. -/
def jsonEscape (cs : List Char) : List Char :=
  match cs with
  | [] => []
  | c :: rest => jsonEscapeChar c ++ jsonEscape rest

/-- A quoted, escaped JSON string literal. -/
def jsonStringLit (s : String) : List Char :=
  quoteChar :: (jsonEscape s.toList ++ [quoteChar])

mutual
/-- Serialization of a JSON value, per the JSON grammar. -/
def Json.render : Json → List Char
  | .null => "null".toList
  | .str s => jsonStringLit s
  | .num n => intChars n
  | .bool true => "true".toList
  | .bool false => "false".toList
  | .arr items => '[' :: (JsonArr.render items ++ [']'])
  | .obj fields => '\x7b' :: (JsonObj.render fields ++ ['\x7d'])

/-- Comma-separated serialization of array elements. -/
def JsonArr.render : JsonArr → List Char
  | .nil => []
  | .cons x .nil => Json.render x
  | .cons x (.cons y tl) => Json.render x ++ ',' :: JsonArr.render (.cons y tl)

/-- Comma-separated serialization of object members. -/
def JsonObj.render : JsonObj → List Char
  | .nil => []
  | .cons k v .nil => JsonObj.renderMember k v
  | .cons k v (.cons k2 v2 tl) => JsonObj.renderMember k v ++ ',' :: JsonObj.render (.cons k2 v2 tl)

/-- Serialization of one `"key":value` object member. -/
def JsonObj.renderMember (k : String) (v : Json) : List Char :=
  jsonStringLit k ++ ':' :: Json.render v
end

/-- Builds a `JsonArr` from a list. -/
def JsonArr.ofList : List Json → JsonArr
  | [] => .nil
  | x :: rest => .cons x (JsonArr.ofList rest)

/-- Builds a `JsonObj` from a list of members. -/
def JsonObj.ofList : List (String × Json) → JsonObj
  | [] => .nil
  | (k, v) :: rest => .cons k v (JsonObj.ofList rest)

/-- Modelled from the spec: a string is well-formed JSON when it is the
serialized form of some JSON value. -/
def wellFormedJSON (s : String) : Prop :=
  ∃ j : Json, Json.render j = s.toList

/-- A character that needs no JSON escaping. -/
def jsonSafeChar (c : Char) : Prop :=
  c ≠ '"' ∧ c ≠ '\\' ∧ 32 ≤ c.toNat

/-- A string whose characters need no JSON escaping. -/
def jsonSafe (s : String) : Prop :=
  ∀ c ∈ s.toList, jsonSafeChar c

/-! ### A quote-tracking automaton

In any serialized JSON value, the `"` character occurs only as a string
delimiter or escaped (as `\"`) inside a string.  The automaton below
tracks whether a scan position is outside a string, inside one, or right
after a backslash inside one; a full JSON rendering always brings it
back to `out`.  A string on which the automaton ends elsewhere therefore
cannot be well-formed JSON. -/

inductive JState where
  | out : JState
  | inStr : JState
  | esc : JState
deriving DecidableEq, Repr

/-- One automaton step. -/
def jstep : JState → Char → JState
  | .out, c => if c = '"' then .inStr else .out
  | .inStr, c => if c = '\\' then .esc else if c = '"' then .out else .inStr
  | .esc, _ => .inStr

/-- Runs the automaton over a character list. -/
def jrun (st : JState) (cs : List Char) : JState :=
  cs.foldl jstep st

theorem jrun_append (st : JState) (xs ys : List Char) :
    jrun st (xs ++ ys) = jrun (jrun st xs) ys :=
  List.foldl_append jstep st xs ys

theorem jrun_out_noQuote (cs : List Char) (h : ∀ c ∈ cs, c ≠ '"') :
    jrun .out cs = .out := by
  induction cs with
  | nil => rfl
  | cons c rest ih =>
      have hc : c ≠ '"' := h c (by simp)
      show jrun (jstep .out c) rest = .out
      rw [show jstep JState.out c = .out by simp [jstep, hc]]
      exact ih fun x hx => h x (by simp [hx])

theorem digitChar_mem (d : Nat) : digitChar d ∈ decDigits :=
  List.get_mem _ _ _

theorem natCharsAux_digits (fuel n : Nat) : ∀ c ∈ natCharsAux fuel n, c ∈ decDigits := by
  induction fuel generalizing n with
  | zero => intro c hc; simp [natCharsAux] at hc
  | succ fuel ih =>
      intro c hc
      match n with
      | 0 => simp [natCharsAux] at hc
      | m + 1 =>
          simp only [natCharsAux, List.mem_append, List.mem_singleton] at hc
          rcases hc with hc | hc
          · exact ih _ c hc
          · rw [hc]; exact digitChar_mem _

theorem natChars_digits (n : Nat) : ∀ c ∈ natChars n, c ∈ decDigits := by
  intro c hc
  unfold natChars at hc
  split at hc
  · exact (by decide : ∀ x ∈ "0".toList, x ∈ decDigits) c hc
  · exact natCharsAux_digits _ _ c hc

theorem intChars_noQuote (n : Int) : ∀ c ∈ intChars n, c ≠ '"' := by
  intro c hc
  have hd : ∀ x ∈ decDigits, x ≠ '"' := by decide
  unfold intChars at hc
  split at hc
  · rcases List.mem_cons.mp hc with hc | hc
    · rw [hc]; decide
    · exact hd c (natChars_digits _ c hc)
  · exact hd c (natChars_digits _ c hc)

theorem jrun_inStr_escapeChar (c : Char) : jrun .inStr (jsonEscapeChar c) = .inStr := by
  have h16 : ∀ n : Nat, jstep .inStr (hexDigit n) = .inStr := by
    intro n
    have hmem : hexDigit n ∈ hexDigits := List.get_mem _ _ _
    exact (by decide : ∀ x ∈ hexDigits, jstep JState.inStr x = JState.inStr) _ hmem
  unfold jsonEscapeChar
  split
  · rfl
  · split
    · rfl
    · split
      · simp only [jrun, List.foldl_cons, List.foldl_nil]
        rw [show jstep (jstep (jstep (jstep JState.inStr slashChar) 'u') '0') '0' = JState.inStr from rfl]
        rw [h16, h16]
      · rename_i h1 h2 _
        show jstep .inStr c = .inStr
        have h1a : c ≠ '"' := by simpa [quoteChar] using h1
        have h2a : c ≠ '\\' := by simpa [slashChar] using h2
        simp [jstep, h1a, h2a]

theorem jrun_inStr_escape (cs : List Char) : jrun .inStr (jsonEscape cs) = .inStr := by
  induction cs with
  | nil => rfl
  | cons c rest ih =>
      show jrun .inStr (jsonEscapeChar c ++ jsonEscape rest) = .inStr
      rw [jrun_append, jrun_inStr_escapeChar, ih]

theorem jrun_out_strLiteral (s : String) :
    jrun .out (jsonStringLit s) = .out := by
  show jrun (jstep .out quoteChar) (jsonEscape s.toList ++ [quoteChar]) = .out
  rw [show jstep JState.out quoteChar = .inStr from rfl, jrun_append, jrun_inStr_escape]
  rfl

mutual
theorem jrun_out_render (j : Json) : jrun .out (Json.render j) = .out := by
  match j with
  | .null => simp only [Json.render]; decide
  | .bool true => simp only [Json.render]; decide
  | .bool false => simp only [Json.render]; decide
  | .num n =>
      simp only [Json.render]
      exact jrun_out_noQuote _ (intChars_noQuote n)
  | .str s =>
      simp only [Json.render]
      exact jrun_out_strLiteral s
  | .arr items =>
      simp only [Json.render]
      show jrun (jstep .out '[') (JsonArr.render items ++ [']']) = .out
      rw [show jstep JState.out '[' = .out from rfl, jrun_append, jrun_out_renderArr items]
      rfl
  | .obj fields =>
      simp only [Json.render]
      show jrun (jstep .out '\x7b') (JsonObj.render fields ++ ['\x7d']) = .out
      rw [show jstep JState.out '\x7b' = .out from rfl, jrun_append, jrun_out_renderObj fields]
      rfl

theorem jrun_out_renderArr (items : JsonArr) : jrun .out (JsonArr.render items) = .out := by
  match items with
  | .nil => simp only [JsonArr.render]; rfl
  | .cons x .nil =>
      simp only [JsonArr.render]
      exact jrun_out_render x
  | .cons x (.cons y tl) =>
      simp only [JsonArr.render]
      rw [jrun_append, jrun_out_render x]
      show jrun (jstep .out ',') (JsonArr.render (.cons y tl)) = .out
      rw [show jstep JState.out ',' = .out from rfl]
      exact jrun_out_renderArr (.cons y tl)

theorem jrun_out_renderObj (fields : JsonObj) : jrun .out (JsonObj.render fields) = .out := by
  match fields with
  | .nil => simp only [JsonObj.render]; rfl
  | .cons k v .nil =>
      simp only [JsonObj.render]
      exact jrun_out_renderMember k v
  | .cons k v (.cons k2 v2 tl) =>
      simp only [JsonObj.render]
      rw [jrun_append, jrun_out_renderMember k v]
      show jrun (jstep .out ',') (JsonObj.render (.cons k2 v2 tl)) = .out
      rw [show jstep JState.out ',' = .out from rfl]
      exact jrun_out_renderObj (.cons k2 v2 tl)

theorem jrun_out_renderMember (k : String) (v : Json) :
    jrun .out (JsonObj.renderMember k v) = .out := by
  simp only [JsonObj.renderMember]
  rw [jrun_append, jrun_out_strLiteral]
  show jrun (jstep .out ':') (Json.render v) = .out
  rw [show jstep JState.out ':' = .out from rfl]
  exact jrun_out_render v
end

/-- A string on which the quote automaton does not end in `out` is not
well-formed JSON. -/
theorem not_wellFormedJSON_of_jrun (s : String) (h : jrun .out s.toList ≠ .out) :
    ¬ wellFormedJSON s := by
  rintro ⟨j, hj⟩
  exact h (hj ▸ jrun_out_render j)

/-! ### util.go -/

/-- The loop of `ByteSizeToFriendlyString`: divide by 1024 while the
value is at least 1024 and a larger unit remains. -/
def friendlyLoop : ℚ → List String → ℚ × String
  | v, [] => (v, "")
  | v, [p] => (v, p)
  | v, p :: p2 :: rest => if 1024 ≤ v then friendlyLoop (v / 1024) (p2 :: rest) else (v, p)

/-- Rounding to the nearest integer, ties to even — the rounding Go's
`fmt` applies when formatting with `%.2f`. -/
def roundHalfEven (q : ℚ) : Int :=
  let f := ⌊q⌋
  if q - f < 1 / 2 then f
  else if 1 / 2 < q - f then f + 1
  else if f % 2 = 0 then f else f + 1

/-- Renders a nonnegative hundredths count as `w.dd`. -/
def hundredthsText (n : Int) : String :=
  toString (n / 100) ++ "." ++ (if n % 100 < 10 then "0" else "") ++ toString (n % 100)

/-- Formatting of a rational with two decimals, as Go's `%.2f`. -/
def formatTwoDecimals (q : ℚ) : String :=
  let scaled := roundHalfEven (q * 100)
  if scaled < 0 then "-" ++ hundredthsText (-scaled) else hundredthsText scaled

/-- Embeds `ByteSizeToFriendlyString` (util.go).  `float64` arithmetic
is embedded as exact rational arithmetic: the divisions by 1024 are
exact in binary floating point for every length below 2^53, so the two
agree there. -/
def ByteSizeToFriendlyString (length : Int) : String :=
  match friendlyLoop (length : ℚ) ["B", "kB", "MB", "GB", "TB"] with
  | (v, p) => formatTwoDecimals v ++ " " ++ p

/-! ### The problem envelope -/

/-- A value stored under a key of a problem envelope's `specifics` map. -/
inductive SpecValue where
  | str (s : String)
  | int (n : Int)
  | strList (xs : List String)

/-- JSON form of a `specifics` value. -/
def SpecValue.toJson : SpecValue → Json
  | .str s => .str s
  | .int n => .num n
  | .strList xs => .arr (JsonArr.ofList (xs.map Json.str))

/-- Modelled from the spec: `problem.Details` (external package
`github.com/ljpx/problem`), the structured error payload with fields
`type`, `title`, `detail`, the debug-only `error` and the open
`specifics` map. -/
structure ProblemDetails where
  type      : String
  title     : String
  detail    : String
  errorText : Option String := none
  specifics : List (String × SpecValue) := []

/-- JSON form of a problem envelope: `type`, `title`, `detail` always,
then `error` when attached, then `specifics` when nonempty, with
`specifics` keys listed in sorted order as Go's map serialization
emits them. -/
def detailsToJson (p : ProblemDetails) : Json :=
  .obj (JsonObj.ofList
    ([("type", Json.str p.type), ("title", Json.str p.title), ("detail", Json.str p.detail)]
      ++ (match p.errorText with
          | some e => [("error", Json.str e)]
          | none => [])
      ++ (match p.specifics with
          | [] => []
          | ss => [("specifics", Json.obj (JsonObj.ofList (ss.map fun kv => (kv.1, kv.2.toJson))))])))

/-- Modelled from the spec: `json.Marshal` applied to a `problem.Details`
value; it always succeeds, and the repository's tests pin the exact
output shape reproduced by `detailsToJson`. -/
def marshalDetails (p : ProblemDetails) : String :=
  String.mk (Json.render (detailsToJson p))

/-- The serializable models a `Context` is asked to respond with: a
problem envelope, an already-serialized value, or a model whose
`json.Marshal` fails with the given error text. -/
inductive JSONModel where
  | details (p : ProblemDetails)
  | raw (s : String)
  | unserializable (errMsg : String)

/-- Modelled from the spec: the outcome of `json.Marshal` on a model. -/
def marshal : JSONModel → Except String String
  | .details p => .ok (marshalDetails p)
  | .raw s => .ok s
  | .unserializable e => .error e

/-- Embeds `strings.ToUpper` at the character level for the ASCII range
the declared methods and content types live in. -/
def goCharUpper (c : Char) : Char :=
  if 97 ≤ c.toNat ∧ c.toNat ≤ 122 then Char.ofNat (c.toNat - 32) else c

/-- Embeds `strings.ToUpper`. -/
def goToUpper (s : String) : String :=
  String.mk (s.toList.map goCharUpper)

/-- The white-space set `strings.TrimSpace` trims (Latin-1 range). -/
def goIsSpace (c : Char) : Bool :=
  c == ' ' || c == '\t' || c == '\n' || c == '\x0b' || c == '\x0c' || c == '\r' || c == '\x85' || c == '\xa0'

/-- Embeds `strings.TrimSpace`. -/
def goTrimSpace (s : String) : String :=
  String.mk (((s.toList.dropWhile goIsSpace).reverse.dropWhile goIsSpace).reverse)

/-! ### Context.go -/

/-- Embeds `Context`.  The wrapped `http.ResponseWriter` is the
`MeasuredResponseWriter` installed by the dispatch wrapper; the request
is represented by the fields the embedded operations read (`r.Method`,
`r.Header.Get("Content-Type")`, `r.ContentLength`); the di container is
outside the model; the artifact map is a function as a Go map. -/
structure Context (α : Type) where
  mrw                 : MeasuredResponseWriter
  config              : Config
  correlationID       : String
  middlewareArtifacts : String → Option α
  reqMethod           : String
  reqContentType      : String
  reqContentLength    : Int

/-- Embeds `NewContext`: fresh writer wrapper, freshly generated
correlation identifier (taken as a parameter), empty artifact map. -/
def NewContext (α : Type) (config : Config) (corrId method contentType : String) (contentLength : Int) : Context α :=
  { mrw := NewMeasuredResponseWriter
    config := config
    correlationID := corrId
    middlewareArtifacts := fun _ => none
    reqMethod := method
    reqContentType := contentType
    reqContentLength := contentLength }

/-- Embeds `GetMiddlewareArtifact`: the artifact, or `none` (Go `nil`)
when absent. -/
def Context.GetMiddlewareArtifact (ctx : Context α) (name : String) : Option α :=
  ctx.middlewareArtifacts name

/-- Embeds `SetMiddlewareArtifact`. -/
def Context.SetMiddlewareArtifact (ctx : Context α) (name : String) (value : α) : Context α :=
  { ctx with middlewareArtifacts := fun k => if k = name then some value else ctx.middlewareArtifacts k }

/-- Embeds `Respond`: sets the `Correlation-ID` response header, then
writes the status line through the measured writer. -/
def Context.Respond (ctx : Context α) (code : Int) : Context α :=
  { ctx with mrw := (ctx.mrw.headerSetCall "Correlation-ID" ctx.correlationID).WriteHeader code }

/-- Embeds `getRawProblemDetailsForSerializationError`: the substitute
envelope text, built by direct interpolation of the configured type
root and, when debugging is enabled and an error is present, of the raw
error text. -/
def getRawProblemDetailsForSerializationError (config : Config) (err : Option String) : String :=
  let errStr :=
    match config.debuggingEnabled, err with
    | true, some e => ",\"error\":\"" ++ e ++ "\""
    | _, _ => ""
  "\x7b\"type\":\"" ++ config.problemTypeRoot
    ++ "/http/internal-server-error\",\"title\":\"Internal Server Error\",\"detail\":\"Serialization of the response model failed.\""
    ++ errStr ++ "\x7d"

/-- The first half of `RespondWithJSON`: the serialized body and the
final code — the model's serialization and the caller's code, or, when
serialization fails, the substitute envelope and 500. -/
def marshalOrSubstitute (config : Config) (code : Int) (model : JSONModel) : String × Int :=
  match marshal model with
  | .ok rawJSON => (rawJSON, code)
  | .error err => (getRawProblemDetailsForSerializationError config (some err), 500)

/-- Embeds `RespondWithJSON`: serializes the model, on failure
substituting the raw internal-error envelope and overriding the code
with 500; sets `Content-Type` and `Content-Length`, responds, and
writes the body. -/
def Context.RespondWithJSON (ctx : Context α) (code : Int) (model : JSONModel) : Context α :=
  let pair := marshalOrSubstitute ctx.config code model
  let rawJSON := pair.1
  let code := pair.2
  let ctx1 := { ctx with mrw := ctx.mrw.headerSetCall "Content-Type" "application/json" }
  let ctx2 := { ctx1 with mrw := ctx1.mrw.headerSetCall "Content-Length" (toString rawJSON.length) }
  let ctx3 := ctx2.Respond code
  { ctx3 with mrw := ctx3.mrw.WriteBody rawJSON }

/-- Embeds `getProblemDetailsForUnsupportedMediaType`. -/
def getProblemDetailsForUnsupportedMediaType (config : Config) (providedContentType : String) (allowedContentTypes : List String) : ProblemDetails :=
  { type := config.problemTypeRoot ++ "/http/unsupported-media-type"
    title := "Unsupported Media Type"
    detail := "The Content-Type '" ++ providedContentType ++ "' is not supported by this endpoint."
    specifics := [("allowedContentTypes", .strList allowedContentTypes), ("providedContentType", .str providedContentType)] }

/-- Embeds `getProblemDetailsForRequestEntityTooLarge`. -/
def getProblemDetailsForRequestEntityTooLarge (config : Config) (contentLength maxLength : Int) : ProblemDetails :=
  { type := config.problemTypeRoot ++ "/http/request-entity-too-large"
    title := "Request Entity Too Large"
    detail := "The provided request entity of length " ++ ByteSizeToFriendlyString contentLength
      ++ " (" ++ toString contentLength ++ " bytes) exceeds the maximum of " ++ ByteSizeToFriendlyString maxLength
      ++ " (" ++ toString maxLength ++ " bytes) on this endpoint."
    specifics := [("contentLength", .int contentLength), ("maximumContentLength", .int maxLength)] }

/-- Embeds `getProblemDetailsForLengthRequired`. -/
def getProblemDetailsForLengthRequired (config : Config) : ProblemDetails :=
  { type := config.problemTypeRoot ++ "/http/length-required"
    title := "Length Required"
    detail := "This endpoint requires that the Content-Length header be set to a positive, non-zero value." }

/-- Embeds `getProblemDetailsForMethodNotAllowed`. -/
def getProblemDetailsForMethodNotAllowed (config : Config) (method : String) (allowedMethods : List String) : ProblemDetails :=
  { type := config.problemTypeRoot ++ "/http/method-not-allowed"
    title := "Method Not Allowed"
    detail := "This endpoint does not allow use of the '" ++ method ++ "' method."
    specifics := [("allowedMethods", .strList allowedMethods), ("methodUsed", .str method)] }

/-- Embeds `getProblemDetailsForNotFound`. -/
def getProblemDetailsForNotFound (config : Config) (subjectType subject : String) : ProblemDetails :=
  { type := config.problemTypeRoot ++ "/http/not-found"
    title := "Not Found"
    detail := "The " ++ subjectType ++ " '" ++ subject ++ "' was not found."
    specifics := [("subject", .str subject), ("subjectType", .str subjectType)] }

/-- Embeds `getProblemDetailsForInternalServerError`: the `error` text
is attached only when debugging is enabled and an error is present. -/
def getProblemDetailsForInternalServerError (config : Config) (err : Option String) : ProblemDetails :=
  { type := config.problemTypeRoot ++ "/http/internal-server-error"
    title := "Internal Server Error"
    detail := "An internal server error prevented the request from completing."
    errorText :=
      match config.debuggingEnabled, err with
      | true, some e => some e
      | _, _ => none }

/-- Embeds `NotFound`. -/
def Context.NotFound (ctx : Context α) (subjectType subject : String) : Context α :=
  ctx.RespondWithJSON 404 (.details (getProblemDetailsForNotFound ctx.config subjectType subject))

/-- Embeds `InternalServerError`. -/
def Context.InternalServerError (ctx : Context α) (err : Option String) : Context α :=
  ctx.RespondWithJSON 500 (.details (getProblemDetailsForInternalServerError ctx.config err))

/-- Embeds `AssertContentType`: uppercased, whitespace-trimmed request
content type compared against the uppercased allowed list; on mismatch
responds 415 and returns `false`. -/
def Context.AssertContentType (ctx : Context α) (allowedContentTypes : List String) : Context α × Bool :=
  let contentType := ctx.reqContentType
  let contentTypeUppercase := goTrimSpace (goToUpper contentType)
  if allowedContentTypes.any fun allowed => contentTypeUppercase == goToUpper allowed then
    (ctx, true)
  else
    (ctx.RespondWithJSON 415 (.details (getProblemDetailsForUnsupportedMediaType ctx.config contentType allowedContentTypes)), false)

/-- Embeds `AssertContentLength`: responds 413 when the declared length
exceeds `maxLength`, otherwise 411 when it is not positive, otherwise
passes. -/
def Context.AssertContentLength (ctx : Context α) (maxLength : Int) : Context α × Bool :=
  let contentLength := ctx.reqContentLength
  if contentLength > maxLength then
    (ctx.RespondWithJSON 413 (.details (getProblemDetailsForRequestEntityTooLarge ctx.config contentLength maxLength)), false)
  else if contentLength ≤ 0 then
    (ctx.RespondWithJSON 411 (.details (getProblemDetailsForLengthRequired ctx.config)), false)
  else
    (ctx, true)

/-- Embeds `AssertMethod`: uppercased request method compared against
the uppercased allowed list; on mismatch responds 405 and returns
`false`. -/
def Context.AssertMethod (ctx : Context α) (allowedMethods : List String) : Context α × Bool :=
  let methodUpperCase := goToUpper ctx.reqMethod
  if allowedMethods.any fun allowed => methodUpperCase == goToUpper allowed then
    (ctx, true)
  else
    (ctx.RespondWithJSON 405 (.details (getProblemDetailsForMethodNotAllowed ctx.config ctx.reqMethod allowedMethods)), false)

/-! ### HandlerBuilder.go -/

/-- Go map lookup on an association list. -/
def mapLookup : List (String × β) → String → Option β
  | [], _ => none
  | (k, v) :: rest, key => if k = key then some v else mapLookup rest key

/-- Go map assignment: replaces the entry for the key, or appends one. -/
def mapInsert : List (String × β) → String → β → List (String × β)
  | [], key, value => [(key, value)]
  | (k, v) :: rest, key, value =>
      if k = key then (key, value) :: rest else (k, v) :: mapInsert rest key value

/-- Embeds `Route` (Route.go): declared method, pattern path, middleware
chain and handler.  A middleware (`Middleware.Handle`) takes the context
and returns the updated context and whether the chain continues; the
handler returns the updated context. -/
structure RouteM (α : Type) where
  method     : String
  path       : String
  middleware : List (Context α → Context α × Bool)
  handle     : Context α → Context α

/-- The loop body of `buildHandlerForRoute`: runs the middleware in
order, stopping at the first one that returns `false`; the handler runs
only when the whole chain continued. -/
def runMiddleware : List (Context α → Context α × Bool) → (Context α → Context α) → Context α → Context α
  | [], handle, ctx => handle ctx
  | mw :: rest, handle, ctx =>
      match mw ctx with
      | (ctx1, shouldContinue) =>
          if shouldContinue then runMiddleware rest handle ctx1 else ctx1

/-- Embeds `buildHandlerForRoute`. -/
def buildHandlerForRoute (route : RouteM α) : Context α → Context α :=
  fun ctx => runMiddleware route.middleware route.handle ctx

/-- Embeds `buildHandlerForPath`.  The route loop fills the
method-indexed Go map `handlerByMethod` and collects `allowedMethods`;
the returned closure asserts the method case-insensitively, then indexes
`handlerByMethod` with the *raw* request method.  A missing key gives
the `nil` function in Go, and calling it panics — modelled as `none`;
`some` carries the context after a completed dispatch. -/
def buildHandlerForPath (routes : List (RouteM α)) : Context α → Option (Context α) :=
  let maps := routes.foldl
    (fun (acc : List (String × (Context α → Context α)) × List String) route =>
      (mapInsert acc.1 route.method (buildHandlerForRoute route), acc.2 ++ [route.method]))
    ([], [])
  let handlerByMethod := maps.1
  let allowedMethods := maps.2
  fun ctx =>
    match ctx.AssertMethod allowedMethods with
    | (ctx1, ok) =>
        if ok then
          match mapLookup handlerByMethod ctx1.reqMethod with
          | some handler => some (handler ctx1)
          | none => none
        else some ctx1

/-- One access-log line, as the deferred logger formats it: the raw
`mrw.statusCode` field, the friendly byte volume, and the request path.
The wall-clock duration of the line is outside the model. -/
structure LogEntry where
  status     : Int
  volumeText : String
  path       : String
deriving Repr, DecidableEq

/-- Outcome of the top-level request adapter: the final context and the
access-log lines emitted for the request. -/
structure HandledRequest (α : Type) where
  ctx  : Context α
  logs : List LogEntry

/-- Embeds `buildHandlerFromRequest`: creates the measured writer and
the context, runs the handler, and in the deferred block recovers a
panic into a 500 envelope when no header has been written yet, then
logs exactly one line.  `ctxHandler` returns the context at its exit
point together with `some` panic text (the `%v` form of the panic
value) when it panicked, `none` when it returned normally. -/
def buildHandlerFromRequest (config : Config) (corrId method contentType : String) (contentLength : Int) (path : String)
    (ctxHandler : Context α → Context α × Option String) : HandledRequest α :=
  let ctx := NewContext α config corrId method contentType contentLength
  match ctxHandler ctx with
  | (ctx1, panicValue) =>
      let ctx2 :=
        match panicValue with
        | some p => if ctx1.mrw.HasWrittenHeaders then ctx1 else ctx1.InternalServerError (some p)
        | none => ctx1
      { ctx := ctx2
        logs := [{ status := ctx2.mrw.statusCode
                   volumeText := ByteSizeToFriendlyString ctx2.mrw.volume
                   path := path }] }

/-- Embeds `purifyPath`: backslashes become slashes, surrounding
whitespace is trimmed. -/
def purifyPath (path : String) : String :=
  goTrimSpace (String.mk (path.toList.map fun c => if c = '\\' then '/' else c))

/-- Embeds `HandlerBuilder`: the path-indexed route registry and the
single-use built flag. -/
structure HandlerBuilder (α : Type) where
  routesByPath : List (String × List (RouteM α))
  hasBeenBuilt : Bool

/-- Embeds `NewHandlerBuilder`. -/
def NewHandlerBuilder (α : Type) : HandlerBuilder α :=
  { routesByPath := [], hasBeenBuilt := false }

/-- Embeds `Use`: `assertNotAlreadyBuilt` panics once built — modelled
as `none`; otherwise the route is appended to its purified path's
list. -/
def HandlerBuilder.Use (b : HandlerBuilder α) (route : RouteM α) : Option (HandlerBuilder α) :=
  if b.hasBeenBuilt then none
  else
    let path := purifyPath route.path
    let existing :=
      match mapLookup b.routesByPath path with
      | some rs => rs
      | none => []
    some { b with routesByPath := mapInsert b.routesByPath path (existing ++ [route]) }

/-- Embeds `Build`: `assertNotAlreadyBuilt` panics once built — modelled
as `none`; otherwise the flag is set and every registered path is
compiled with `buildHandlerForPath`.  The mux registration, the
catch-all 404 fallback and the `buildHandlerFromRequest` wrapping are
settled directly on those definitions. -/
def HandlerBuilder.Build (b : HandlerBuilder α) :
    Option (HandlerBuilder α × List (String × (Context α → Option (Context α)))) :=
  if b.hasBeenBuilt then none
  else
    some ({ b with hasBeenBuilt := true },
      b.routesByPath.map fun pr => (pr.1, buildHandlerForPath pr.2))

/-- Runs middleware in declaration order, returning `some` final context
when every middleware continued, `none` as soon as one returns
`false`. -/
def chainPasses : List (Context α → Context α × Bool) → Context α → Option (Context α)
  | [], ctx => some ctx
  | mw :: rest, ctx =>
      match mw ctx with
      | (ctx1, shouldContinue) => if shouldContinue then chainPasses rest ctx1 else none

/-! ### Supporting lemmas -/

theorem headerGet_headerSet_self (hs : List (String × String)) (n v : String) :
    headerGet (headerSet hs n v) n = some v := by
  induction hs with
  | nil => simp [headerSet, headerGet]
  | cons kv rest ih =>
      by_cases h : kv.1 = n
      · simp [headerSet, headerGet, h]
      · simp [headerSet, headerGet, h, ih]

theorem countWriteHeaders_append (xs ys : List WriterEvent) :
    countWriteHeaders (xs ++ ys) = countWriteHeaders xs + countWriteHeaders ys := by
  simp [countWriteHeaders, List.filter_append]

theorem committedResponse_append (xs ys : List WriterEvent) (hs : List (String × String))
    (h : countWriteHeaders xs = 0) :
    committedResponse (xs ++ ys) hs = committedResponse ys (applyHeaderEvents xs hs) := by
  induction xs generalizing hs with
  | nil => simp [applyHeaderEvents]
  | cons e rest ih =>
      match e with
      | .setHeader n v =>
          simp only [List.cons_append, committedResponse, applyHeaderEvents]
          refine ih _ ?_
          simp only [countWriteHeaders, List.length_eq_zero, List.filter_eq_nil_iff] at h ⊢
          exact fun a ha => h a (by simp [ha])
      | .writeHeader c =>
          exact absurd h (by simp [countWriteHeaders, WriterEvent.isWriteHeader])
      | .write b =>
          simp only [List.cons_append, committedResponse, applyHeaderEvents]
          refine ih _ ?_
          simp only [countWriteHeaders, List.length_eq_zero, List.filter_eq_nil_iff] at h ⊢
          exact fun a ha => h a (by simp [ha])

/-- What `RespondWithJSON` does to the writer when no header has been
written yet: it forwards the three header `Set` calls, one `WriteHeader`
with the final code, and one body `Write`, records the final code, and
marks the headers written. -/
theorem RespondWithJSON_spec (ctx : Context α) (code : Int) (model : JSONModel)
    (hw : ctx.mrw.hasWrittenHeaders = false) :
    (ctx.RespondWithJSON code model).mrw.events
      = ctx.mrw.events
        ++ [.setHeader "Content-Type" "application/json",
            .setHeader "Content-Length" (toString (marshalOrSubstitute ctx.config code model).1.length),
            .setHeader "Correlation-ID" ctx.correlationID,
            .writeHeader (marshalOrSubstitute ctx.config code model).2,
            .write (marshalOrSubstitute ctx.config code model).1]
    ∧ (ctx.RespondWithJSON code model).mrw.statusCode = (marshalOrSubstitute ctx.config code model).2
    ∧ (ctx.RespondWithJSON code model).mrw.hasWrittenHeaders = true := by
  refine ⟨?_, ?_, ?_⟩ <;>
    simp [Context.RespondWithJSON, Context.Respond, MeasuredResponseWriter.headerSetCall,
      MeasuredResponseWriter.WriteHeader, MeasuredResponseWriter.WriteBody, hw]

/-- A debugging-enabled configuration, as the repository's test fixtures
build it. -/
def debugConfig : Config :=
  { problemTypeRoot := "https://testi.ng", debuggingEnabled := true, jsonContentLengthLimit := 1048576 }

/-! ### Claim C7 -/

/-- C7 counterexample: a first `WriteHeader` call with code 0 is
recorded and forwarded, but `StatusCode()` afterwards returns the
default 200, not the first code — so "StatusCode() thereafter returns
the first code" fails for a first code of 0. -/
theorem WriteHeader_zero_statusCode_counterexample :
    (writeHeaderSeq NewMeasuredResponseWriter [0]).statusCode = 0
    ∧ (writeHeaderSeq NewMeasuredResponseWriter [0]).events = [.writeHeader 0]
    ∧ (writeHeaderSeq NewMeasuredResponseWriter [0]).StatusCode = 200
    ∧ ¬ (writeHeaderSeq NewMeasuredResponseWriter [0]).StatusCode = 0 := by
  refine ⟨rfl, rfl, rfl, by decide⟩

/-- C7 (amended): on a writer whose headers are not yet written, the
first `WriteHeader` call records its code and forwards exactly one
`WriteHeader` to the underlying writer; every later call of the
sequence is silently ignored, `StatusCode()` afterwards returns the
first code provided that code is nonzero (a first code of 0 leaves the
zero sentinel in place and `StatusCode()` reports the 200 default), and
`HasWrittenHeaders()` is `false` before the first call and `true` after
it. -/
theorem WriteHeader_writeOnce (mrw : MeasuredResponseWriter) (first : Int) (rest : List Int)
    (hw : mrw.hasWrittenHeaders = false) :
    writeHeaderSeq mrw (first :: rest) = mrw.WriteHeader first
    ∧ (writeHeaderSeq mrw (first :: rest)).events = mrw.events ++ [.writeHeader first]
    ∧ (writeHeaderSeq mrw (first :: rest)).statusCode = first
    ∧ (first ≠ 0 → (writeHeaderSeq mrw (first :: rest)).StatusCode = first)
    ∧ (writeHeaderSeq mrw (first :: rest)).hasWrittenHeaders = true
    ∧ mrw.HasWrittenHeaders = false := by
  have hstep : writeHeaderSeq mrw (first :: rest) = writeHeaderSeq (mrw.WriteHeader first) rest := rfl
  have hfirst : mrw.WriteHeader first
      = { mrw with statusCode := first, events := mrw.events ++ [.writeHeader first], hasWrittenHeaders := true } := by
    simp [MeasuredResponseWriter.WriteHeader, hw]
  have hall : writeHeaderSeq mrw (first :: rest) = mrw.WriteHeader first := by
    rw [hstep, writeHeaderSeq_of_written]
    rw [hfirst]
  refine ⟨hall, ?_, ?_, ?_, ?_, ?_⟩
  · rw [hall, hfirst]
  · rw [hall, hfirst]
  · intro hne
    rw [hall, hfirst]
    simp [MeasuredResponseWriter.StatusCode, hne]
  · rw [hall, hfirst]
  · simp [MeasuredResponseWriter.HasWrittenHeaders, hw]

/-- C7 witness: the amended theorem applied to a fresh writer and the
call sequence `WriteHeader 400; WriteHeader 403` of the repository's
write-once test. -/
theorem WriteHeader_writeOnce_witness :
    NewMeasuredResponseWriter.hasWrittenHeaders = false
    ∧ ((400 : Int) ≠ 0 → (writeHeaderSeq NewMeasuredResponseWriter [400, 403]).StatusCode = 400)
    ∧ (writeHeaderSeq NewMeasuredResponseWriter [400, 403]).events = [.writeHeader 400] := by
  have h := WriteHeader_writeOnce NewMeasuredResponseWriter 400 [403] rfl
  exact ⟨rfl, h.2.2.2.1, by simpa using h.2.1⟩

/-! ### Claim C9 -/

/-- C9: while a `HandlerBuilder` has not been built, both `Use` and
`Build` succeed; once `Build` has run, any further `Use` and any second
`Build` hit `assertNotAlreadyBuilt` and panic (modelled as `none`). -/
theorem HandlerBuilder_freezeAfterBuild (b : HandlerBuilder α) (route route2 : RouteM α)
    (hb : b.hasBeenBuilt = false) :
    (b.Use route).isSome = true
    ∧ b.Build.isSome = true
    ∧ (∀ b2 tbl, b.Build = some (b2, tbl) → b2.Use route2 = none ∧ b2.Build = none) := by
  refine ⟨by simp [HandlerBuilder.Use, hb], by simp [HandlerBuilder.Build, hb], ?_⟩
  intro b2 tbl hbuild
  have hb2 : b2.hasBeenBuilt = true := by
    simp only [HandlerBuilder.Build, hb, Bool.false_eq_true, if_false] at hbuild
    obtain ⟨h1, _⟩ := Prod.mk.injEq .. ▸ Option.some.injEq .. ▸ hbuild
    rw [← h1]
  exact ⟨by simp [HandlerBuilder.Use, hb2], by simp [HandlerBuilder.Build, hb2]⟩

/-- C9 witness: a fresh builder accepts a route and builds; the built
builder rejects both operations. -/
theorem HandlerBuilder_freezeAfterBuild_witness :
    (NewHandlerBuilder Unit).hasBeenBuilt = false
    ∧ ((NewHandlerBuilder Unit).Use ⟨"GET", "/t", [], id⟩).isSome = true
    ∧ (NewHandlerBuilder Unit).Build.isSome = true := by
  have h := HandlerBuilder_freezeAfterBuild (NewHandlerBuilder Unit)
    ⟨"GET", "/t", [], id⟩ ⟨"GET", "/t", [], id⟩ rfl
  exact ⟨rfl, h.1, h.2.1⟩

/-! ### Claim C10 -/

/-- C10: a fresh context's artifact store is empty — every name reads
`nil` (`none`); after `SetMiddlewareArtifact name v`, reading `name`
yields exactly `v`, and reading any other name is unchanged. -/
theorem MiddlewareArtifact_store (config : Config) (corrId method contentType : String)
    (contentLength : Int) (ctx : Context α) (name other : String) (v : α)
    (hne : other ≠ name) :
    (∀ anyName, (NewContext α config corrId method contentType contentLength).GetMiddlewareArtifact anyName = none)
    ∧ (ctx.SetMiddlewareArtifact name v).GetMiddlewareArtifact name = some v
    ∧ (ctx.SetMiddlewareArtifact name v).GetMiddlewareArtifact other = ctx.GetMiddlewareArtifact other := by
  refine ⟨fun anyName => rfl, ?_, ?_⟩
  · simp [Context.SetMiddlewareArtifact, Context.GetMiddlewareArtifact]
  · simp [Context.SetMiddlewareArtifact, Context.GetMiddlewareArtifact, hne]

/-- C10 witness: the store behaviour at the test fixture's concrete
artifact `("number", 5)` and an unrelated name. -/
theorem MiddlewareArtifact_store_witness :
    (("extra" : String) ≠ "number")
    ∧ ((NewContext Nat debugConfig "corr" "GET" "" (-1)).SetMiddlewareArtifact "number" 5).GetMiddlewareArtifact "number" = some 5
    ∧ ((NewContext Nat debugConfig "corr" "GET" "" (-1)).SetMiddlewareArtifact "number" 5).GetMiddlewareArtifact "extra"
        = (NewContext Nat debugConfig "corr" "GET" "" (-1)).GetMiddlewareArtifact "extra" := by
  have h := MiddlewareArtifact_store debugConfig "corr" "GET" "" (-1)
    (NewContext Nat debugConfig "corr" "GET" "" (-1)) "number" "extra" 5 (by decide)
  exact ⟨by decide, h.2.1, h.2.2⟩

/-! ### Claim C1 -/

/-- C1 counterexample: with `max = -1` and declared length 0 (so
`ContentLength ≤ 0`), `AssertContentLength` does return `false`, but it
responds 413, not 411 — the "too large" check fires first because the
zero length exceeds the negative maximum, refuting "status 411
regardless of the value of max". -/
theorem AssertContentLength_negMax_counterexample :
    ((NewContext Unit debugConfig "corr" "GET" "" 0).AssertContentLength (-1)).2 = false
    ∧ ((NewContext Unit debugConfig "corr" "GET" "" 0).AssertContentLength (-1)).1.mrw.statusCode = 413
    ∧ ¬ ((NewContext Unit debugConfig "corr" "GET" "" 0).AssertContentLength (-1)).1.mrw.statusCode = 411 :=
  ⟨rfl, rfl, by decide⟩

/-- C1 (amended): for every request with `ContentLength ≤ 0`,
`AssertContentLength max` returns `false`; it responds 411 whenever
`ContentLength ≤ max` — in particular for every `max ≥ 0` — while for
`max < ContentLength` the "too large" check, which is performed before
the "missing" check, responds 413. -/
theorem AssertContentLength_nonpositive (ctx : Context α) (maxLength : Int)
    (hw : ctx.mrw.hasWrittenHeaders = false) :
    (ctx.reqContentLength ≤ 0 → (ctx.AssertContentLength maxLength).2 = false)
    ∧ (ctx.reqContentLength ≤ 0 → ctx.reqContentLength ≤ maxLength →
        (ctx.AssertContentLength maxLength).1.mrw.statusCode = 411)
    ∧ (maxLength < ctx.reqContentLength →
        (ctx.AssertContentLength maxLength).1.mrw.statusCode = 413) := by
  by_cases hgt : maxLength < ctx.reqContentLength
  · have hbranch : ctx.AssertContentLength maxLength
        = (ctx.RespondWithJSON 413 (.details (getProblemDetailsForRequestEntityTooLarge ctx.config ctx.reqContentLength maxLength)), false) := by
      simp [Context.AssertContentLength, hgt]
    refine ⟨fun _ => by rw [hbranch], fun hcl hle => absurd hgt (not_lt.mpr hle), fun _ => ?_⟩
    rw [hbranch]
    exact (RespondWithJSON_spec ctx 413 _ hw).2.1
  · have hle : ctx.reqContentLength ≤ maxLength := not_lt.mp hgt
    refine ⟨fun hcl => ?_, fun hcl _ => ?_, fun hgt2 => absurd hgt2 hgt⟩
    · have hbranch : ctx.AssertContentLength maxLength
          = (ctx.RespondWithJSON 411 (.details (getProblemDetailsForLengthRequired ctx.config)), false) := by
        simp [Context.AssertContentLength, not_lt.mpr hle, hcl]
      rw [hbranch]
    · have hbranch : ctx.AssertContentLength maxLength
          = (ctx.RespondWithJSON 411 (.details (getProblemDetailsForLengthRequired ctx.config)), false) := by
        simp [Context.AssertContentLength, not_lt.mpr hle, hcl]
      rw [hbranch]
      exact (RespondWithJSON_spec ctx 411 _ hw).2.1

/-- C1 witness: the amended theorem at the test fixture's input — a
request with no declared length (0) against `max = 12` returns `false`
with a 411 response. -/
theorem AssertContentLength_nonpositive_witness :
    ((NewContext Unit debugConfig "corr" "GET" "" 0).AssertContentLength 12).2 = false
    ∧ ((NewContext Unit debugConfig "corr" "GET" "" 0).AssertContentLength 12).1.mrw.statusCode = 411 := by
  have h := AssertContentLength_nonpositive (NewContext Unit debugConfig "corr" "GET" "" 0) 12 rfl
  exact ⟨h.1 (by decide), h.2.1 (by decide) (by decide)⟩

/-! ### Claim C2 -/

/-- C2: evaluation at the failing input.  A route is registered with
declared method `"get"` and a request arrives with method `"GET"`: the
method assertion passes (case-insensitive match), but the per-path
dispatcher then indexes `handlerByMethod` with the raw request method,
finds no entry — the Go map yields the `nil` function — and calling it
panics (`none`), so the route's middleware chain and handler never run.
With an exactly matching declared method (third conjunct) the same
dispatcher runs the route's handler. -/
theorem buildHandlerForPath_caseMismatch_panics :
    ((NewContext Unit debugConfig "corr" "GET" "" (-1)).AssertMethod ["get"]).2 = true
    ∧ (buildHandlerForPath [⟨"get", "/t", [], fun c => c.Respond 200⟩]
        (NewContext Unit debugConfig "corr" "GET" "" (-1))).isNone = true
    ∧ (buildHandlerForPath [⟨"GET", "/t", [], fun c => c.Respond 200⟩]
        (NewContext Unit debugConfig "corr" "GET" "" (-1))).map (fun c => c.mrw.statusCode) = some 200 :=
  ⟨by rfl, by rfl, by rfl⟩

/-! ### Claim C4 -/

/-- C4: evaluation at the failing input.  Every handled request emits
exactly one access-log line (first conjunct, for all inputs), but the
line carries the raw `mrw.statusCode` field: for a handler that
completes without writing any response the logged status is 0, even
though the sink's `StatusCode()` — which the claim says the log
reports — returns the 200 default. -/
theorem accessLog_zeroStatus :
    (∀ (α : Type) (config : Config) (corrId method contentType : String) (contentLength : Int)
        (path : String) (ctxHandler : Context α → Context α × Option String),
        (buildHandlerFromRequest config corrId method contentType contentLength path ctxHandler).logs.length = 1)
    ∧ (buildHandlerFromRequest debugConfig "corr" "GET" "" (-1) "/x" (fun (c : Context Unit) => (c, none))).logs.map LogEntry.status
        = [0]
    ∧ (buildHandlerFromRequest debugConfig "corr" "GET" "" (-1) "/x" (fun (c : Context Unit) => (c, none))).ctx.mrw.StatusCode = 200 := by
  refine ⟨?_, by rfl, by rfl⟩
  intro α config corrId method contentType contentLength path ctxHandler
  rcases h : ctxHandler (NewContext α config corrId method contentType contentLength) with ⟨ctx1, pv⟩
  simp [buildHandlerFromRequest, h]

/-! ### Claim C8 -/

theorem runMiddleware_stop (mws1 mws2 : List (Context α → Context α × Bool))
    (mw : Context α → Context α × Bool) (handle : Context α → Context α)
    (ctx ctxi ctx2 : Context α)
    (hpass : chainPasses mws1 ctx = some ctxi) (hstop : mw ctxi = (ctx2, false)) :
    runMiddleware (mws1 ++ mw :: mws2) handle ctx = ctx2 := by
  induction mws1 generalizing ctx with
  | nil =>
      have hctx : ctxi = ctx := by
        simpa [chainPasses] using hpass.symm
      subst hctx
      simp [runMiddleware, hstop]
  | cons m rest ih =>
      rcases hm : m ctx with ⟨c1, b⟩
      rw [chainPasses, hm] at hpass
      cases b with
      | false => simp at hpass
      | true =>
          simp only [if_true] at hpass
          simp only [List.cons_append, runMiddleware, hm, if_true]
          exact ih c1 hpass

theorem runMiddleware_pass (mws : List (Context α → Context α × Bool))
    (handle : Context α → Context α) (ctx ctxf : Context α)
    (hpass : chainPasses mws ctx = some ctxf) :
    runMiddleware mws handle ctx = handle ctxf := by
  induction mws generalizing ctx with
  | nil =>
      have hctx : ctxf = ctx := by
        simpa [chainPasses] using hpass.symm
      subst hctx
      rfl
  | cons m rest ih =>
      rcases hm : m ctx with ⟨c1, b⟩
      rw [chainPasses, hm] at hpass
      cases b with
      | false => simp at hpass
      | true =>
          simp only [if_true] at hpass
          simp only [runMiddleware, hm, if_true]
          exact ih c1 hpass

/-- C8: if the middleware before position `i` all return `true` (in
declaration order, threading the context) and the middleware at
position `i` returns `false`, then the compiled route handler's result
is exactly that middleware's context — whatever middleware follow and
whatever the route handler is, they are never invoked; and the route
handler runs exactly when the whole chain returned `true`, on the
context threaded through the chain in declaration order. -/
theorem middlewareChain_shortCircuit (mws1 mws : List (Context α → Context α × Bool))
    (mw : Context α → Context α × Bool) (handle : Context α → Context α)
    (ctx ctxi ctx2 ctxf : Context α) :
    (chainPasses mws1 ctx = some ctxi → mw ctxi = (ctx2, false) →
      ∀ (mws2 : List (Context α → Context α × Bool)) (method path : String)
        (anyHandle : Context α → Context α),
        buildHandlerForRoute ⟨method, path, mws1 ++ mw :: mws2, anyHandle⟩ ctx = ctx2)
    ∧ (chainPasses mws ctx = some ctxf →
      ∀ (method path : String),
        buildHandlerForRoute ⟨method, path, mws, handle⟩ ctx = handle ctxf) := by
  constructor
  · intro hpass hstop mws2 method path anyHandle
    exact runMiddleware_stop mws1 mws2 mw anyHandle ctx ctxi ctx2 hpass hstop
  · intro hpass method path
    exact runMiddleware_pass mws handle ctx ctxf hpass

/-- C8 witness: a chain whose first middleware continues and whose
second returns `false` never reaches a 500-responding third middleware
or the 200-responding handler; the same first middleware alone lets the
handler respond 200. -/
theorem middlewareChain_shortCircuit_witness :
    (chainPasses [fun (c : Context Unit) => (c, true)] (NewContext Unit debugConfig "corr" "GET" "" (-1))
        = some (NewContext Unit debugConfig "corr" "GET" "" (-1))
      ∧ (fun (c : Context Unit) => (c, false)) (NewContext Unit debugConfig "corr" "GET" "" (-1))
        = (NewContext Unit debugConfig "corr" "GET" "" (-1), false)
      ∧ buildHandlerForRoute
          ⟨"GET", "/t",
            [fun c => (c, true), fun c => (c, false), fun c => (c.Respond 500, true)],
            fun c => c.Respond 200⟩
          (NewContext Unit debugConfig "corr" "GET" "" (-1))
        = NewContext Unit debugConfig "corr" "GET" "" (-1))
    ∧ buildHandlerForRoute ⟨"GET", "/t", [fun c => (c, true)], fun c => c.Respond 200⟩
        (NewContext Unit debugConfig "corr" "GET" "" (-1))
      = (NewContext Unit debugConfig "corr" "GET" "" (-1)).Respond 200 := by
  have h := middlewareChain_shortCircuit
    [fun (c : Context Unit) => (c, true)] [fun (c : Context Unit) => (c, true)]
    (fun c => (c, false)) (fun c => c.Respond 200)
    (NewContext Unit debugConfig "corr" "GET" "" (-1))
    (NewContext Unit debugConfig "corr" "GET" "" (-1))
    (NewContext Unit debugConfig "corr" "GET" "" (-1))
    (NewContext Unit debugConfig "corr" "GET" "" (-1))
  exact ⟨⟨rfl, rfl, h.1 rfl rfl [fun c => (c.Respond 500, true)] "GET" "/t" (fun c => c.Respond 200)⟩,
    h.2 rfl "GET" "/t"⟩

/-! ### Claim C3 -/

/-- C3: when the handler (or one of its middleware) panics and no
header has been written, the recovery boundary responds with exactly
one 500 internal-server-error envelope — the underlying writer receives
exactly one `WriteHeader`, code 500, and one body `Write` of the
envelope, whose `error` field carries the panic text exactly when
debugging is enabled; when headers were already written at the panic,
the context is left untouched (the fault is only logged). -/
theorem panicRecovery (config : Config) (corrId method contentType : String) (contentLength : Int)
    (path : String) (ctxHandler : Context α → Context α × Option String)
    (ctx1 : Context α) (p : String)
    (hrun : ctxHandler (NewContext α config corrId method contentType contentLength) = (ctx1, some p)) :
    (ctx1.mrw.hasWrittenHeaders = false →
        (buildHandlerFromRequest config corrId method contentType contentLength path ctxHandler).ctx.mrw.statusCode = 500
        ∧ (buildHandlerFromRequest config corrId method contentType contentLength path ctxHandler).ctx.mrw.events
            = ctx1.mrw.events
              ++ [.setHeader "Content-Type" "application/json",
                  .setHeader "Content-Length"
                    (toString (marshalDetails (getProblemDetailsForInternalServerError ctx1.config (some p))).length),
                  .setHeader "Correlation-ID" ctx1.correlationID,
                  .writeHeader 500,
                  .write (marshalDetails (getProblemDetailsForInternalServerError ctx1.config (some p)))]
        ∧ (countWriteHeaders ctx1.mrw.events = 0 →
            countWriteHeaders (buildHandlerFromRequest config corrId method contentType contentLength path ctxHandler).ctx.mrw.events = 1)
        ∧ (getProblemDetailsForInternalServerError ctx1.config (some p)).errorText
            = (if ctx1.config.debuggingEnabled then some p else none))
    ∧ (ctx1.mrw.hasWrittenHeaders = true →
        (buildHandlerFromRequest config corrId method contentType contentLength path ctxHandler).ctx = ctx1) := by
  have hctx : (buildHandlerFromRequest config corrId method contentType contentLength path ctxHandler).ctx
      = (if ctx1.mrw.HasWrittenHeaders then ctx1 else ctx1.InternalServerError (some p)) := by
    simp [buildHandlerFromRequest, hrun]
  constructor
  · intro hw
    have hcase : (buildHandlerFromRequest config corrId method contentType contentLength path ctxHandler).ctx
        = ctx1.InternalServerError (some p) := by
      rw [hctx]
      simp [MeasuredResponseWriter.HasWrittenHeaders, hw]
    have hspec := RespondWithJSON_spec ctx1 500
      (.details (getProblemDetailsForInternalServerError ctx1.config (some p))) hw
    refine ⟨?_, ?_, ?_, ?_⟩
    · rw [hcase]
      exact hspec.2.1
    · rw [hcase]
      exact hspec.1
    · intro hcount
      rw [hcase, Context.InternalServerError, hspec.1, countWriteHeaders_append, hcount]
      rfl
    · cases hdbg : ctx1.config.debuggingEnabled <;>
        simp [getProblemDetailsForInternalServerError, hdbg]
  · intro hw
    rw [hctx]
    simp [MeasuredResponseWriter.HasWrittenHeaders, hw]

/-- C3 witness: a handler that immediately panics with `"boom"` under a
debugging-enabled configuration. -/
theorem panicRecovery_witness :
    (buildHandlerFromRequest debugConfig "corr" "GET" "" (-1) "/x"
        (fun (c : Context Unit) => (c, some "boom"))).ctx.mrw.statusCode = 500
    ∧ countWriteHeaders (buildHandlerFromRequest debugConfig "corr" "GET" "" (-1) "/x"
        (fun (c : Context Unit) => (c, some "boom"))).ctx.mrw.events = 1
    ∧ (getProblemDetailsForInternalServerError debugConfig (some "boom")).errorText = some "boom" := by
  have h := (panicRecovery debugConfig "corr" "GET" "" (-1) "/x"
    (fun (c : Context Unit) => (c, some "boom"))
    (NewContext Unit debugConfig "corr" "GET" "" (-1)) "boom" rfl).1 rfl
  exact ⟨h.1, h.2.2.1 rfl, by simpa using h.2.2.2⟩

/-! ### Claim C6 -/

/-- The response committed through a context's writer carries the
`Correlation-ID` header set to the context's correlation identifier. -/
def responseCarriesCorrelationID (ctx : Context α) : Prop :=
  ∃ code hs, committedResponse ctx.mrw.events [] = some (code, hs)
    ∧ headerGet hs "Correlation-ID" = some ctx.correlationID

theorem Respond_carriesCorrelationID (ctx : Context α) (code : Int)
    (hw : ctx.mrw.hasWrittenHeaders = false) (hn : countWriteHeaders ctx.mrw.events = 0) :
    responseCarriesCorrelationID (ctx.Respond code) := by
  have hev : (ctx.Respond code).mrw.events
      = ctx.mrw.events ++ [.setHeader "Correlation-ID" ctx.correlationID, .writeHeader code] := by
    simp [Context.Respond, MeasuredResponseWriter.headerSetCall, MeasuredResponseWriter.WriteHeader, hw]
  refine ⟨code, headerSet (applyHeaderEvents ctx.mrw.events []) "Correlation-ID" ctx.correlationID, ?_, ?_⟩
  · show committedResponse (ctx.Respond code).mrw.events [] = _
    rw [hev, committedResponse_append _ _ _ hn]
    rfl
  · show headerGet _ "Correlation-ID" = some ctx.correlationID
    exact headerGet_headerSet_self _ _ _

theorem RespondWithJSON_carriesCorrelationID (ctx : Context α) (code : Int) (model : JSONModel)
    (hw : ctx.mrw.hasWrittenHeaders = false) (hn : countWriteHeaders ctx.mrw.events = 0) :
    responseCarriesCorrelationID (ctx.RespondWithJSON code model) := by
  have hspec := RespondWithJSON_spec ctx code model hw
  refine ⟨(marshalOrSubstitute ctx.config code model).2,
    headerSet (applyHeaderEvents (ctx.mrw.events
        ++ [.setHeader "Content-Type" "application/json",
            .setHeader "Content-Length" (toString (marshalOrSubstitute ctx.config code model).1.length)]) [])
      "Correlation-ID" ctx.correlationID, ?_, ?_⟩
  · show committedResponse (ctx.RespondWithJSON code model).mrw.events [] = _
    rw [hspec.1]
    have hn2 : countWriteHeaders (ctx.mrw.events
        ++ [.setHeader "Content-Type" "application/json",
            .setHeader "Content-Length" (toString (marshalOrSubstitute ctx.config code model).1.length)]) = 0 := by
      rw [countWriteHeaders_append, hn]
      rfl
    have hassoc : ctx.mrw.events
        ++ [WriterEvent.setHeader "Content-Type" "application/json",
            .setHeader "Content-Length" (toString (marshalOrSubstitute ctx.config code model).1.length),
            .setHeader "Correlation-ID" ctx.correlationID,
            .writeHeader (marshalOrSubstitute ctx.config code model).2,
            .write (marshalOrSubstitute ctx.config code model).1]
        = (ctx.mrw.events
            ++ [WriterEvent.setHeader "Content-Type" "application/json",
                .setHeader "Content-Length" (toString (marshalOrSubstitute ctx.config code model).1.length)])
          ++ [WriterEvent.setHeader "Correlation-ID" ctx.correlationID,
              .writeHeader (marshalOrSubstitute ctx.config code model).2,
              .write (marshalOrSubstitute ctx.config code model).1] := by
      simp
    rw [hassoc, committedResponse_append _ _ _ hn2]
    rfl
  · exact headerGet_headerSet_self _ _ _

/-- C6: on a context whose writer has not yet committed a response,
every response-producing operation — `Respond`, `RespondWithJSON`,
`NotFound`, `InternalServerError`, and each assertion when it fails —
commits a response whose headers carry `Correlation-ID` bound to the
request's correlation identifier (the header is set before the status
line is written, so it is part of the committed header set). -/
theorem everyResponse_carriesCorrelationID (ctx : Context α) (code : Int) (model : JSONModel)
    (subjectType subject : String) (err : Option String)
    (allowedContentTypes allowedMethods : List String) (maxLength : Int)
    (hw : ctx.mrw.hasWrittenHeaders = false) (hn : countWriteHeaders ctx.mrw.events = 0) :
    responseCarriesCorrelationID (ctx.Respond code)
    ∧ responseCarriesCorrelationID (ctx.RespondWithJSON code model)
    ∧ responseCarriesCorrelationID (ctx.NotFound subjectType subject)
    ∧ responseCarriesCorrelationID (ctx.InternalServerError err)
    ∧ ((ctx.AssertContentType allowedContentTypes).2 = false →
        responseCarriesCorrelationID (ctx.AssertContentType allowedContentTypes).1)
    ∧ ((ctx.AssertContentLength maxLength).2 = false →
        responseCarriesCorrelationID (ctx.AssertContentLength maxLength).1)
    ∧ ((ctx.AssertMethod allowedMethods).2 = false →
        responseCarriesCorrelationID (ctx.AssertMethod allowedMethods).1) := by
  refine ⟨Respond_carriesCorrelationID ctx code hw hn,
    RespondWithJSON_carriesCorrelationID ctx code model hw hn,
    RespondWithJSON_carriesCorrelationID ctx 404 _ hw hn,
    RespondWithJSON_carriesCorrelationID ctx 500 _ hw hn, ?_, ?_, ?_⟩
  · intro hfail
    by_cases hmatch : allowedContentTypes.any fun allowed =>
        goTrimSpace (goToUpper ctx.reqContentType) == goToUpper allowed
    · exact absurd hfail (by simp [Context.AssertContentType, hmatch])
    · have : ctx.AssertContentType allowedContentTypes
          = (ctx.RespondWithJSON 415 (.details (getProblemDetailsForUnsupportedMediaType ctx.config ctx.reqContentType allowedContentTypes)), false) := by
        simp [Context.AssertContentType, hmatch]
      rw [this]
      exact RespondWithJSON_carriesCorrelationID ctx 415 _ hw hn
  · intro hfail
    by_cases hgt : maxLength < ctx.reqContentLength
    · have : ctx.AssertContentLength maxLength
          = (ctx.RespondWithJSON 413 (.details (getProblemDetailsForRequestEntityTooLarge ctx.config ctx.reqContentLength maxLength)), false) := by
        simp [Context.AssertContentLength, hgt]
      rw [this]
      exact RespondWithJSON_carriesCorrelationID ctx 413 _ hw hn
    · by_cases hcl : ctx.reqContentLength ≤ 0
      · have : ctx.AssertContentLength maxLength
            = (ctx.RespondWithJSON 411 (.details (getProblemDetailsForLengthRequired ctx.config)), false) := by
          simp [Context.AssertContentLength, hgt, hcl]
        rw [this]
        exact RespondWithJSON_carriesCorrelationID ctx 411 _ hw hn
      · exact absurd hfail (by simp [Context.AssertContentLength, hgt, hcl])
  · intro hfail
    by_cases hmatch : allowedMethods.any fun allowed =>
        goToUpper ctx.reqMethod == goToUpper allowed
    · exact absurd hfail (by simp [Context.AssertMethod, hmatch])
    · have : ctx.AssertMethod allowedMethods
          = (ctx.RespondWithJSON 405 (.details (getProblemDetailsForMethodNotAllowed ctx.config ctx.reqMethod allowedMethods)), false) := by
        simp [Context.AssertMethod, hmatch]
      rw [this]
      exact RespondWithJSON_carriesCorrelationID ctx 405 _ hw hn

/-- C6 witness: the seven operations on a fresh context, with the
assertions made to fail (empty allowed content-type list, no declared
length against limit 12, method `GET` against allowed `POST`). -/
theorem everyResponse_carriesCorrelationID_witness :
    responseCarriesCorrelationID ((NewContext Unit debugConfig "corr" "GET" "" (-1)).Respond 204)
    ∧ responseCarriesCorrelationID ((NewContext Unit debugConfig "corr" "GET" "" (-1)).RespondWithJSON 204 (.raw "\x7b\x7d"))
    ∧ responseCarriesCorrelationID ((NewContext Unit debugConfig "corr" "GET" "" (-1)).NotFound "User" "1234")
    ∧ responseCarriesCorrelationID ((NewContext Unit debugConfig "corr" "GET" "" (-1)).InternalServerError (some "ahhh"))
    ∧ responseCarriesCorrelationID ((NewContext Unit debugConfig "corr" "GET" "" (-1)).AssertContentType []).1
    ∧ responseCarriesCorrelationID ((NewContext Unit debugConfig "corr" "GET" "" (-1)).AssertContentLength 12).1
    ∧ responseCarriesCorrelationID ((NewContext Unit debugConfig "corr" "GET" "" (-1)).AssertMethod ["POST"]).1 := by
  have h := everyResponse_carriesCorrelationID (NewContext Unit debugConfig "corr" "GET" "" (-1))
    204 (.raw "\x7b\x7d") "User" "1234" (some "ahhh") [] ["POST"] 12 rfl rfl
  exact ⟨h.1, h.2.1, h.2.2.1, h.2.2.2.1,
    h.2.2.2.2.1 (by rfl), h.2.2.2.2.2.1 (by rfl), h.2.2.2.2.2.2 (by rfl)⟩

/-! ### Claim C5 -/

theorem jsonEscapeChar_safe (c : Char) (h : jsonSafeChar c) : jsonEscapeChar c = [c] := by
  obtain ⟨h1, h2, h3⟩ := h
  simp [jsonEscapeChar, quoteChar, slashChar, h1, h2, not_lt.mpr h3]

theorem jsonEscape_safe (cs : List Char) (h : ∀ c ∈ cs, jsonSafeChar c) : jsonEscape cs = cs := by
  induction cs with
  | nil => rfl
  | cons c rest ih =>
      show jsonEscapeChar c ++ jsonEscape rest = c :: rest
      rw [jsonEscapeChar_safe c (h c (by simp)), ih fun x hx => h x (by simp [hx])]
      rfl

theorem jsonEscape_append (a b : List Char) : jsonEscape (a ++ b) = jsonEscape a ++ jsonEscape b := by
  induction a with
  | nil => rfl
  | cons c rest ih =>
      show jsonEscapeChar c ++ jsonEscape (rest ++ b) = (jsonEscapeChar c ++ jsonEscape rest) ++ jsonEscape b
      rw [ih, List.append_assoc]

theorem stringToListAppend (s t : String) : (s ++ t).toList = s.toList ++ t.toList :=
  String.data_append s t

instance (c : Char) : Decidable (jsonSafeChar c) := by
  unfold jsonSafeChar
  infer_instance

instance (s : String) : Decidable (jsonSafe s) := by
  unfold jsonSafe
  infer_instance

set_option maxRecDepth 8192 in
/-- C5 counterexample: with debugging enabled and a serialization error
whose text contains a double quote (as `encoding/json` error strings
can), `RespondWithJSON` does override the code with 500 and write the
substitute envelope, but the envelope — built by interpolating the raw
error text into the JSON template without escaping — is not well-formed
JSON, refuting "the response is never malformed". -/
theorem respondWithJSON_malformedSubstitute_counterexample :
    ((NewContext Unit debugConfig "corr" "GET" "" (-1)).RespondWithJSON 200
        (.unserializable "invalid character '\"' in string")).mrw.statusCode = 500
    ∧ ((NewContext Unit debugConfig "corr" "GET" "" (-1)).RespondWithJSON 200
        (.unserializable "invalid character '\"' in string")).mrw.events.getLast?
      = some (.write (getRawProblemDetailsForSerializationError debugConfig (some "invalid character '\"' in string")))
    ∧ ¬ wellFormedJSON (getRawProblemDetailsForSerializationError debugConfig (some "invalid character '\"' in string")) := by
  refine ⟨by rfl, by rfl, not_wellFormedJSON_of_jrun _ (by decide)⟩

set_option maxRecDepth 8192 in
/-- C5 (amended): for every status code and every model whose JSON
serialization fails, `RespondWithJSON` discards the caller-supplied
code, responds with status 500, and writes the substitute
internal-server-error envelope; the envelope is never empty, includes
the raw diagnostic text exactly when debugging is enabled (with
debugging off the envelope does not depend on the error at all), and is
well-formed JSON provided the configured type root and the diagnostic
text contain no characters requiring JSON escaping — with such
characters (for example a double quote) in the diagnostic the envelope
can be malformed, as the counterexample shows. -/
theorem respondWithJSON_serializationFailure (ctx : Context α) (code : Int) (errMsg : String)
    (hw : ctx.mrw.hasWrittenHeaders = false) :
    (ctx.RespondWithJSON code (.unserializable errMsg)).mrw.statusCode = 500
    ∧ (ctx.RespondWithJSON code (.unserializable errMsg)).mrw.events
        = ctx.mrw.events
          ++ [.setHeader "Content-Type" "application/json",
              .setHeader "Content-Length"
                (toString (getRawProblemDetailsForSerializationError ctx.config (some errMsg)).length),
              .setHeader "Correlation-ID" ctx.correlationID,
              .writeHeader 500,
              .write (getRawProblemDetailsForSerializationError ctx.config (some errMsg))]
    ∧ getRawProblemDetailsForSerializationError ctx.config (some errMsg) ≠ ""
    ∧ (ctx.config.debuggingEnabled = false →
        ∀ otherErr : String, getRawProblemDetailsForSerializationError ctx.config (some otherErr)
          = getRawProblemDetailsForSerializationError ctx.config (some errMsg))
    ∧ (ctx.config.debuggingEnabled = true →
        ∃ s t, s ++ errMsg.toList ++ t
          = (getRawProblemDetailsForSerializationError ctx.config (some errMsg)).toList)
    ∧ (jsonSafe ctx.config.problemTypeRoot → jsonSafe errMsg →
        wellFormedJSON (getRawProblemDetailsForSerializationError ctx.config (some errMsg))) := by
  have hspec := RespondWithJSON_spec ctx code (.unserializable errMsg) hw
  refine ⟨hspec.2.1, hspec.1, ?_, ?_, ?_, ?_⟩
  · intro hempty
    have hdata := congrArg String.toList hempty
    cases hdbg : ctx.config.debuggingEnabled <;>
      simp [getRawProblemDetailsForSerializationError, hdbg, stringToListAppend] at hdata
  · intro hdbg otherErr
    simp [getRawProblemDetailsForSerializationError, hdbg]
  · intro hdbg
    refine ⟨("\x7b\"type\":\"" ++ ctx.config.problemTypeRoot
        ++ "/http/internal-server-error\",\"title\":\"Internal Server Error\",\"detail\":\"Serialization of the response model failed.\""
        ++ ",\"error\":\"").toList, ("\"" ++ "\x7d").toList, ?_⟩
    simp [getRawProblemDetailsForSerializationError, hdbg, stringToListAppend]
  · intro hroot herr
    cases hdbg : ctx.config.debuggingEnabled
    · refine ⟨.obj (.cons "type" (.str (ctx.config.problemTypeRoot ++ "/http/internal-server-error"))
        (.cons "title" (.str "Internal Server Error")
        (.cons "detail" (.str "Serialization of the response model failed.") .nil))), ?_⟩
      simp only [Json.render, JsonObj.render, JsonObj.renderMember, jsonStringLit,
        getRawProblemDetailsForSerializationError, hdbg]
      rw [stringToListAppend, jsonEscape_append, jsonEscape_safe _ hroot]
      simp only [stringToListAppend, List.append_assoc, List.cons_append, List.nil_append,
        List.append_nil]
      rfl
    · refine ⟨.obj (.cons "type" (.str (ctx.config.problemTypeRoot ++ "/http/internal-server-error"))
        (.cons "title" (.str "Internal Server Error")
        (.cons "detail" (.str "Serialization of the response model failed.")
        (.cons "error" (.str errMsg) .nil)))), ?_⟩
      simp only [Json.render, JsonObj.render, JsonObj.renderMember, jsonStringLit,
        getRawProblemDetailsForSerializationError, hdbg]
      rw [stringToListAppend, jsonEscape_append, jsonEscape_safe _ hroot, jsonEscape_safe _ herr]
      simp only [stringToListAppend, List.append_assoc, List.cons_append, List.nil_append,
        List.append_nil]
      rfl

set_option maxRecDepth 8192 in
/-- C5 witness: the amended theorem at the repository's own test input —
debugging on, a model failing with `"cannot be marshalled"` (whose text,
like the fixture's type root, needs no JSON escaping). -/
theorem respondWithJSON_serializationFailure_witness :
    ((NewContext Unit debugConfig "corr" "GET" "" (-1)).RespondWithJSON 200
        (.unserializable "cannot be marshalled")).mrw.statusCode = 500
    ∧ getRawProblemDetailsForSerializationError debugConfig (some "cannot be marshalled") ≠ ""
    ∧ wellFormedJSON (getRawProblemDetailsForSerializationError debugConfig (some "cannot be marshalled")) := by
  have h := respondWithJSON_serializationFailure
    (NewContext Unit debugConfig "corr" "GET" "" (-1)) 200 "cannot be marshalled" rfl
  exact ⟨h.1, h.2.2.1, h.2.2.2.2.2 (by decide) (by decide)⟩

end LjpxWeb
